import Mathlib

set_option linter.unnecessarySeqFocus false

/-!
Shallow embedding of the bulk personalized-mail batch pipeline: spreadsheet
record extraction, per-record image rendering, email delivery, and progress
event emission over a push channel, as implemented by the server entry file
(functions `generatePersonalizedImage`, `sendEmail`, `processExcelFile`).

Machine effects are made explicit:
  - the spreadsheet source is a list of raw rows whose first three cells may be
    absent (`Option String`), behind an `Except` that is an error when the file
    cannot be read or parsed;
  - the render/deliver outcome of each record is an oracle
    `Nat → StepOutcome` (index of the record in the extracted list), since the
    network and the canvas are outside the program;
  - the working directory of generated images is a list of record indices whose
    file `card-(i+1).png` currently exists;
  - the push channel is the list of emitted events, in emission order.
-/

/-- One recipient extracted from the sheet: columns 1, 2, 3 of a data row. -/
structure RecipientRecord where
  name : String
  phone : String
  email : String
  deriving Repr, DecidableEq

/-- A raw data row of the worksheet: the rendered string value of each of the
first three cells, or `none` when the cell value is absent (`value?.toString()`
yields `undefined`). -/
structure RawRow where
  cell1 : Option String
  cell2 : Option String
  cell3 : Option String
  deriving Repr, DecidableEq

/-- Parsing of one data row, after the header: trim each of the three cells,
keep the row only when all three are present and non-blank
(`if (name && phone && email)` on the trimmed strings). -/
def parseRow (r : RawRow) : Option RecipientRecord :=
  match r.cell1.map String.trim, r.cell2.map String.trim, r.cell3.map String.trim with
  | some name, some phone, some email =>
      if name ≠ "" ∧ phone ≠ "" ∧ email ≠ "" then
        some { name := name, phone := phone, email := email }
      else none
  | _, _, _ => none

/-- Record extraction from a worksheet: skip the header row (row number 1),
then keep exactly the rows that `parseRow` accepts, in sheet order. -/
def extractRecords (sheet : List RawRow) : List RecipientRecord :=
  (sheet.drop 1).filterMap parseRow

/-- Outcome of the two fallible operations of one loop iteration: render then
send both succeed, or the render throws, or the send throws, with the thrown
error message. -/
inductive StepOutcome where
  | ok
  | renderFail (msg : String)
  | sendFail (msg : String)
  deriving Repr, DecidableEq

/-- The error message a step outcome makes the catch block observe, if any. -/
def StepOutcome.failMsg : StepOutcome → Option String
  | StepOutcome.ok => none
  | StepOutcome.renderFail m => some m
  | StepOutcome.sendFail m => some m

/-- The `results` accumulator of `processExcelFile`. -/
structure Results where
  total : Nat
  success : Nat
  failed : Nat
  errors : List String
  deriving Repr, DecidableEq

/-- Payload of a progress or completion event: `{...results, processing}` plus
the optional `currentIndex` field (absent on the initial event and on the
completion event). -/
structure ProgressData where
  total : Nat
  success : Nat
  failed : Nat
  errors : List String
  processing : Bool
  currentIndex : Option Nat
  deriving Repr, DecidableEq

/-- One event pushed over the channel (`ws.send`). -/
inductive Event where
  | progress (d : ProgressData)
  | complete (d : ProgressData)
  | error (message : String)
  deriving Repr, DecidableEq

/-- Discriminator for progress events. -/
def Event.isProgress : Event → Bool
  | Event.progress _ => true
  | _ => false

/-- Discriminator for completion events. -/
def Event.isComplete : Event → Bool
  | Event.complete _ => true
  | _ => false

/-- Running state of one batch: the `results` accumulator, the events pushed so
far, and the indices of generated image files currently present in the working
directory. -/
structure RunState where
  results : Results
  events : List Event
  files : List Nat
  deriving Repr, DecidableEq

/-- File name of the generated image for the record at index `i` (0-based):
`card-(i+1).png`. -/
def pathOf (i : Nat) : String :=
  "card-" ++ toString (i + 1) ++ ".png"

/-- Body of one iteration of the processing loop, record `row` at index `i`:

  - render writes the image file, send delivers it, `success` is incremented,
    the file is unlinked, and a progress event with the updated counters and
    `currentIndex = i + 1` is pushed;
  - if the render throws, no file is written; the catch block increments
    `failed` and appends the single string `name ++ ": " ++ msg` to `errors`;
  - if the send throws, the file has been written and the catch block does not
    unlink it; `failed` and `errors` are updated the same way.

No progress event is pushed by the catch block. -/
def stepRecord (i : Nat) (row : RecipientRecord) (out : StepOutcome) (s : RunState) : RunState :=
  match out with
  | StepOutcome.ok =>
      let res := { s.results with success := s.results.success + 1 }
      { results := res
        files := (s.files ++ [i]).erase i
        events := s.events ++ [Event.progress
          { total := res.total, success := res.success, failed := res.failed,
            errors := res.errors, processing := true, currentIndex := some (i + 1) }] }
  | StepOutcome.renderFail m =>
      let res := { s.results with
        failed := s.results.failed + 1
        errors := s.results.errors ++ [row.name ++ ": " ++ m] }
      { results := res
        files := s.files
        events := s.events }
  | StepOutcome.sendFail m =>
      let res := { s.results with
        failed := s.results.failed + 1
        errors := s.results.errors ++ [row.name ++ ": " ++ m] }
      { results := res
        files := s.files ++ [i]
        events := s.events }

/-- The `for` loop of `processExcelFile`, starting at index `i`. -/
def runLoop (rows : List RecipientRecord) (outcome : Nat → StepOutcome)
    (s : RunState) (i : Nat) : RunState :=
  match rows with
  | [] => s
  | row :: rest => runLoop rest outcome (stepRecord i row (outcome i) s) (i + 1)

/-- State just before the loop: `results` with `total` set and zero counters,
and the initial progress event (spread of `results`, `processing: true`, no
`currentIndex`) already pushed. -/
def initState (rows : List RecipientRecord) : RunState :=
  { results := { total := rows.length, success := 0, failed := 0, errors := [] }
    events := [Event.progress
      { total := rows.length, success := 0, failed := 0, errors := [],
        processing := true, currentIndex := none }]
    files := [] }

/-- The record-processing part of `processExcelFile`, after the fatal
precondition checks and extraction: initial progress event, the loop, then the
completion event (spread of the final `results`, `processing: false`). -/
def processRecords (rows : List RecipientRecord) (outcome : Nat → StepOutcome) : RunState :=
  let final := runLoop rows outcome (initState rows) 0
  { final with events := final.events ++ [Event.complete
      { total := final.results.total, success := final.results.success,
        failed := final.results.failed, errors := final.results.errors,
        processing := false, currentIndex := none }] }

/-- Inputs of one invocation of `processExcelFile`: the worksheet (or the read
or parse failure message), whether the template image file exists, and whether
both mail credentials are configured. -/
structure BatchInput where
  sheet : Except String (List RawRow)
  templateExists : Bool
  emailConfigured : Bool
  deriving Repr

/-- Observable output of one invocation: the events pushed, the generated image
files left in the working directory, and the returned `results` (`none` when
the function threw, i.e. when a fatal precondition failed). -/
structure RunOutput where
  events : List Event
  files : List Nat
  result : Option Results
  deriving Repr, DecidableEq

/-- The whole of `processExcelFile`: read the workbook, check the template
image exists, create the transporter (throws when credentials are absent),
extract the records, then run the loop. Any of the three fatal throws is
caught by the outer catch, which pushes a single error event and rethrows. -/
def processExcelFile (inp : BatchInput) (outcome : Nat → StepOutcome) : RunOutput :=
  match inp.sheet with
  | Except.error msg => { events := [Event.error msg], files := [], result := none }
  | Except.ok sheet =>
      if inp.templateExists = false then
        { events := [Event.error "Template image not found"], files := [], result := none }
      else if inp.emailConfigured = false then
        { events := [Event.error "Email credentials not configured"], files := [], result := none }
      else
        let final := processRecords (extractRecords sheet) outcome
        { events := final.events, files := final.files, result := some final.results }

/-- The template image, reduced to what the renderer reads from it. -/
structure TemplateImage where
  width : Nat
  height : Nat
  deriving Repr, DecidableEq

/-- One canvas drawing operation recorded by `generatePersonalizedImage`. -/
inductive DrawOp where
  | drawImage (w h : Nat) (x y : Int)
  | strokeText (font : String) (text : String) (x y : Int)
  | fillText (font : String) (text : String) (x y : Int)
  deriving Repr, DecidableEq

/-- The canvas produced for one record: its dimensions and the drawing
operations applied, in order. -/
structure Canvas where
  width : Nat
  height : Nat
  ops : List DrawOp
  deriving Repr, DecidableEq

/-- The image renderer: create a canvas with the template's dimensions, draw
the template at the origin, then stroke and fill the three centered text lines
(name at 36px, phone at 28px, email at 24px) at fixed offsets from the bottom. -/
def generatePersonalizedImage (template : TemplateImage) (data : RecipientRecord) : Canvas :=
  let centerX : Int := (template.width : Int) / 2
  let nameY : Int := (template.height : Int) - 250
  let phoneY : Int := (template.height : Int) - 200
  let emailY : Int := (template.height : Int) - 150
  { width := template.width
    height := template.height
    ops := [ DrawOp.drawImage template.width template.height 0 0,
             DrawOp.strokeText "bold 36px Arial" data.name centerX nameY,
             DrawOp.fillText "bold 36px Arial" data.name centerX nameY,
             DrawOp.strokeText "bold 28px Arial" ("Phone: " ++ data.phone) centerX phoneY,
             DrawOp.fillText "bold 28px Arial" ("Phone: " ++ data.phone) centerX phoneY,
             DrawOp.strokeText "bold 24px Arial" ("Email: " ++ data.email) centerX emailY,
             DrawOp.fillText "bold 24px Arial" ("Email: " ++ data.email) centerX emailY ] }

/-- The character class of the regular expression `\s` as it applies to the
names at hand: ASCII whitespace. -/
def isJsWhitespace (c : Char) : Bool :=
  c = ' ' || c = '\t' || c = '\n' || c = '\r' || c = '\x0b' || c = '\x0c'

/-- The replacement `replace(/\s+/g, '-')` on the character list: each maximal
run of whitespace characters becomes a single dash. -/
def replaceWsRuns : List Char → List Char
  | [] => []
  | [c] => if isJsWhitespace c then ['-'] else [c]
  | c :: d :: rest =>
      if isJsWhitespace c then
        if isJsWhitespace d then replaceWsRuns (d :: rest)
        else '-' :: replaceWsRuns (d :: rest)
      else c :: replaceWsRuns (d :: rest)

/-- The replacement `replace(/\s+/g, '-')` on a string. -/
def replaceWs (s : String) : String :=
  String.mk (replaceWsRuns s.data)

/-- One attachment of the outgoing mail. -/
structure MailAttachment where
  filename : String
  path : String
  deriving Repr, DecidableEq

/-- The `mailOptions` object handed to `transporter.sendMail`. -/
structure MailOptions where
  fromAddr : String
  toAddr : String
  subject : String
  html : String
  attachments : List MailAttachment
  deriving Repr, DecidableEq

/-- The HTML body template up to the interpolated recipient name. -/
def emailHtmlHead : String :=
  "<div style=\"font-family: Arial, sans-serif; max-width: 600px; margin: 0 auto;\">" ++
  "<h2 style=\"color: #3B82F6;\">Your Personalized Investment Card</h2>" ++
  "<p>Dear "

/-- The HTML body template after the interpolated recipient name. -/
def emailHtmlTail : String :=
  ",</p>" ++
  "<p>Thank you for your interest in our Systematic Investment Plan. " ++
  "Please find your personalized investment card attached.</p>" ++
  "<p>This card contains your contact information and highlights the key " ++
  "benefits of our investment approach.</p>" ++
  "<p>For any questions or to start your investment journey, please contact " ++
  "us using the details provided on your card.</p>" ++
  "<p>Best regards,<br>Investment Team</p></div>"

/-- The delivery agent `sendEmail`: one mail to the record's address, fixed
subject, the HTML body with the recipient's name interpolated, and a single
attachment named from the recipient's name with whitespace runs replaced. -/
def sendEmail (senderEmail : String) (recipient : RecipientRecord) (imagePath : String) :
    MailOptions :=
  { fromAddr := senderEmail
    toAddr := recipient.email
    subject := "Your Personalized Investment Card"
    html := emailHtmlHead ++ recipient.name ++ emailHtmlTail
    attachments := [ { filename := "investment-card-" ++ replaceWs recipient.name ++ ".png",
                       path := imagePath } ] }

/-- Number of loop iterations from index `i` on whose outcome is full success. -/
def succeededCount : List RecipientRecord → (Nat → StepOutcome) → Nat → Nat
  | [], _, _ => 0
  | _ :: rest, outcome, i =>
      (match outcome i with | StepOutcome.ok => 1 | _ => 0) + succeededCount rest outcome (i + 1)

/-- Number of loop iterations from index `i` on whose outcome is a failure. -/
def failedCount : List RecipientRecord → (Nat → StepOutcome) → Nat → Nat
  | [], _, _ => 0
  | _ :: rest, outcome, i =>
      (match (outcome i).failMsg with | some _ => 1 | none => 0) + failedCount rest outcome (i + 1)

/-- The error strings the loop from index `i` on appends, in order: one entry
`name ++ ": " ++ msg` per failing record. -/
def expectedErrors : List RecipientRecord → (Nat → StepOutcome) → Nat → List String
  | [], _, _ => []
  | row :: rest, outcome, i =>
      (match (outcome i).failMsg with
       | some m => [row.name ++ ": " ++ m]
       | none => []) ++ expectedErrors rest outcome (i + 1)

/-- The record indices from `i` on whose generated file the loop leaves behind:
exactly the records whose send throws. -/
def leftoverIdx : List RecipientRecord → (Nat → StepOutcome) → Nat → List Nat
  | [], _, _ => []
  | _ :: rest, outcome, i =>
      (match outcome i with | StepOutcome.sendFail _ => [i] | _ => []) ++
        leftoverIdx rest outcome (i + 1)

/-- The `currentIndex` values (absent read as 0) of the progress events of an
event list, in emission order. -/
def progressIndices (events : List Event) : List Nat :=
  events.filterMap fun e =>
    match e with
    | Event.progress d => some (d.currentIndex.getD 0)
    | _ => none

/-! Loop lemmas. Each one relates the state after the remaining iterations to
the state before them, by induction on the remaining records. -/

theorem runLoop_total (rows : List RecipientRecord) (outcome : Nat → StepOutcome) :
    ∀ (s : RunState) (i : Nat), (runLoop rows outcome s i).results.total = s.results.total := by
  induction rows with
  | nil => intro s i; rfl
  | cons row rest ih =>
      intro s i
      simp only [runLoop]
      rw [ih]
      cases h : outcome i <;> simp [stepRecord]

theorem runLoop_success (rows : List RecipientRecord) (outcome : Nat → StepOutcome) :
    ∀ (s : RunState) (i : Nat),
      (runLoop rows outcome s i).results.success =
        s.results.success + succeededCount rows outcome i := by
  induction rows with
  | nil => intro s i; simp [runLoop, succeededCount]
  | cons row rest ih =>
      intro s i
      simp only [runLoop, succeededCount]
      rw [ih]
      cases h : outcome i <;> simp [stepRecord] <;> try omega

theorem runLoop_failed (rows : List RecipientRecord) (outcome : Nat → StepOutcome) :
    ∀ (s : RunState) (i : Nat),
      (runLoop rows outcome s i).results.failed =
        s.results.failed + failedCount rows outcome i := by
  induction rows with
  | nil => intro s i; simp [runLoop, failedCount]
  | cons row rest ih =>
      intro s i
      simp only [runLoop, failedCount]
      rw [ih]
      cases h : outcome i <;> simp [stepRecord, StepOutcome.failMsg] <;> omega

theorem runLoop_errors (rows : List RecipientRecord) (outcome : Nat → StepOutcome) :
    ∀ (s : RunState) (i : Nat),
      (runLoop rows outcome s i).results.errors =
        s.results.errors ++ expectedErrors rows outcome i := by
  induction rows with
  | nil => intro s i; simp [runLoop, expectedErrors]
  | cons row rest ih =>
      intro s i
      simp only [runLoop, expectedErrors]
      rw [ih]
      cases h : outcome i <;> simp [stepRecord, StepOutcome.failMsg]

theorem succeededCount_add_failedCount (rows : List RecipientRecord)
    (outcome : Nat → StepOutcome) :
    ∀ i : Nat, succeededCount rows outcome i + failedCount rows outcome i = rows.length := by
  induction rows with
  | nil => intro i; rfl
  | cons row rest ih =>
      intro i
      simp only [succeededCount, failedCount, List.length_cons]
      have h2 := ih (i + 1)
      cases h : outcome i <;> simp [StepOutcome.failMsg] <;> omega

theorem length_expectedErrors (rows : List RecipientRecord) (outcome : Nat → StepOutcome) :
    ∀ i : Nat, (expectedErrors rows outcome i).length = failedCount rows outcome i := by
  induction rows with
  | nil => intro i; rfl
  | cons row rest ih =>
      intro i
      simp only [expectedErrors, failedCount]
      have h2 := ih (i + 1)
      cases h : outcome i <;> simp [StepOutcome.failMsg] <;> omega

theorem runLoop_files (rows : List RecipientRecord) (outcome : Nat → StepOutcome) :
    ∀ (s : RunState) (i : Nat), (∀ j ∈ s.files, j < i) →
      (runLoop rows outcome s i).files = s.files ++ leftoverIdx rows outcome i := by
  induction rows with
  | nil => intro s i _; simp [runLoop, leftoverIdx]
  | cons row rest ih =>
      intro s i hbound
      have hnotin : i ∉ s.files := fun hm => absurd (hbound i hm) (lt_irrefl i)
      simp only [runLoop, leftoverIdx]
      cases h : outcome i with
      | ok =>
          have hstep : (stepRecord i row StepOutcome.ok s).files = s.files := by
            simp only [stepRecord]
            rw [List.erase_append_right _ hnotin]
            simp
          rw [ih _ (i + 1) ?_]
          · rw [hstep]; simp
          · rw [hstep]
            intro j hj
            exact Nat.lt_succ_of_lt (hbound j hj)
      | renderFail m =>
          rw [ih _ (i + 1) ?_]
          · simp [stepRecord]
          · simp only [stepRecord]
            intro j hj
            exact Nat.lt_succ_of_lt (hbound j hj)
      | sendFail m =>
          rw [ih _ (i + 1) ?_]
          · simp [stepRecord]
          · simp only [stepRecord]
            intro j hj
            rcases List.mem_append.1 hj with hj | hj
            · exact Nat.lt_succ_of_lt (hbound j hj)
            · simp at hj; omega

theorem runLoop_countP_progress (rows : List RecipientRecord) (outcome : Nat → StepOutcome) :
    ∀ (s : RunState) (i : Nat),
      (runLoop rows outcome s i).events.countP Event.isProgress =
        s.events.countP Event.isProgress + succeededCount rows outcome i := by
  induction rows with
  | nil => intro s i; simp [runLoop, succeededCount]
  | cons row rest ih =>
      intro s i
      simp only [runLoop, succeededCount]
      rw [ih]
      cases h : outcome i <;>
        simp [stepRecord, List.countP_append, List.countP_cons, Event.isProgress] <;> omega

theorem runLoop_countP_complete (rows : List RecipientRecord) (outcome : Nat → StepOutcome) :
    ∀ (s : RunState) (i : Nat),
      (runLoop rows outcome s i).events.countP Event.isComplete =
        s.events.countP Event.isComplete := by
  induction rows with
  | nil => intro s i; simp [runLoop]
  | cons row rest ih =>
      intro s i
      simp only [runLoop]
      rw [ih]
      cases h : outcome i <;>
        simp [stepRecord, List.countP_append, List.countP_cons, Event.isComplete]

theorem runLoop_progress_inv (rows : List RecipientRecord) (outcome : Nat → StepOutcome) :
    ∀ (s : RunState) (i : Nat),
      s.results.success + s.results.failed = i →
      s.results.total = i + rows.length →
      (∀ d, Event.progress d ∈ s.events →
        d.success + d.failed = d.currentIndex.getD 0 ∧ d.currentIndex.getD 0 ≤ d.total) →
      ∀ d, Event.progress d ∈ (runLoop rows outcome s i).events →
        d.success + d.failed = d.currentIndex.getD 0 ∧ d.currentIndex.getD 0 ≤ d.total := by
  induction rows with
  | nil => intro s i _ _ hP; simpa [runLoop] using hP
  | cons row rest ih =>
      intro s i hsum htot hP
      simp only [List.length_cons] at htot
      simp only [runLoop]
      cases h : outcome i with
      | ok =>
          apply ih
          · simp only [stepRecord]; omega
          · simp only [stepRecord]; omega
          · intro d hd
            simp only [stepRecord, List.mem_append, List.mem_singleton,
              Event.progress.injEq] at hd
            rcases hd with hd | hd
            · exact hP d hd
            · subst hd
              refine ⟨by simp; omega, by simp; omega⟩
      | renderFail m =>
          apply ih
          · simp only [stepRecord]; omega
          · simp only [stepRecord]; omega
          · intro d hd
            simp only [stepRecord] at hd
            exact hP d hd
      | sendFail m =>
          apply ih
          · simp only [stepRecord]; omega
          · simp only [stepRecord]; omega
          · intro d hd
            simp only [stepRecord] at hd
            exact hP d hd

theorem runLoop_chain (rows : List RecipientRecord) (outcome : Nat → StepOutcome) :
    ∀ (s : RunState) (i : Nat),
      (∀ x ∈ progressIndices s.events, x ≤ i) →
      List.Chain' (fun a b => a ≤ b) (progressIndices s.events) →
      List.Chain' (fun a b => a ≤ b) (progressIndices (runLoop rows outcome s i).events) ∧
        ∀ x ∈ progressIndices (runLoop rows outcome s i).events, x ≤ i + rows.length := by
  induction rows with
  | nil =>
      intro s i hb hc
      refine ⟨by simpa [runLoop] using hc, ?_⟩
      simp only [runLoop, List.length_nil, Nat.add_zero]
      exact hb
  | cons row rest ih =>
      intro s i hb hc
      simp only [runLoop, List.length_cons]
      cases h : outcome i with
      | ok =>
          have hidx : progressIndices (stepRecord i row StepOutcome.ok s).events =
              progressIndices s.events ++ [i + 1] := by
            simp [stepRecord, progressIndices, List.filterMap_append]
          have hb' : ∀ x ∈ progressIndices (stepRecord i row StepOutcome.ok s).events,
              x ≤ i + 1 := by
            rw [hidx]
            intro x hx
            rcases List.mem_append.1 hx with hx | hx
            · exact Nat.le_succ_of_le (hb x hx)
            · simp at hx; omega
          have hc' : List.Chain' (fun a b => a ≤ b)
              (progressIndices (stepRecord i row StepOutcome.ok s).events) := by
            rw [hidx]
            refine List.Chain'.append hc (List.chain'_singleton _) ?_
            intro x hx y hy
            simp at hy
            subst hy
            exact Nat.le_succ_of_le (hb x (List.mem_of_mem_getLast? hx))
          obtain ⟨h1, h2⟩ := ih _ (i + 1) hb' hc'
          refine ⟨h1, ?_⟩
          intro x hx
          have := h2 x hx
          omega
      | renderFail m =>
          have hid : (stepRecord i row (StepOutcome.renderFail m) s).events = s.events := by
            simp [stepRecord]
          obtain ⟨h1, h2⟩ := ih _ (i + 1)
            (by rw [hid]; intro x hx; exact Nat.le_succ_of_le (hb x hx))
            (by rw [hid]; exact hc)
          refine ⟨h1, ?_⟩
          intro x hx
          have := h2 x hx
          omega
      | sendFail m =>
          have hid : (stepRecord i row (StepOutcome.sendFail m) s).events = s.events := by
            simp [stepRecord]
          obtain ⟨h1, h2⟩ := ih _ (i + 1)
            (by rw [hid]; intro x hx; exact Nat.le_succ_of_le (hb x hx))
            (by rw [hid]; exact hc)
          refine ⟨h1, ?_⟩
          intro x hx
          have := h2 x hx
          omega

theorem runLoop_append (l₁ l₂ : List RecipientRecord) (outcome : Nat → StepOutcome) :
    ∀ (s : RunState) (i : Nat),
      runLoop (l₁ ++ l₂) outcome s i =
        runLoop l₂ outcome (runLoop l₁ outcome s i) (i + l₁.length) := by
  induction l₁ with
  | nil => intro s i; simp [runLoop]
  | cons row rest ih =>
      intro s i
      simp only [List.cons_append, runLoop, List.length_cons, List.append_eq]
      rw [ih]
      have harith : i + 1 + rest.length = i + (rest.length + 1) := by omega
      rw [harith]

theorem mem_expectedErrors (rows : List RecipientRecord) (outcome : Nat → StepOutcome) :
    ∀ (k i : Nat) (h : i < rows.length) (m : String),
      (outcome (k + i)).failMsg = some m →
      ((rows.get ⟨i, h⟩).name ++ ": " ++ m) ∈ expectedErrors rows outcome k := by
  induction rows with
  | nil => intro k i h; exact absurd h (by simp)
  | cons row rest ih =>
      intro k i h m hm
      cases i with
      | zero =>
          rw [Nat.add_zero] at hm
          simp only [expectedErrors, hm, List.get]
          simp
      | succ n =>
          have harith : k + 1 + n = k + (n + 1) := by omega
          have hmem := ih (k + 1) n (by simpa using h) m (by rw [harith]; exact hm)
          simp only [expectedErrors, List.get]
          exact List.mem_append.2 (Or.inr hmem)

theorem length_filterMap_parseRow (l : List RawRow) :
    (l.filterMap parseRow).length = l.countP (fun row => (parseRow row).isSome) := by
  induction l with
  | nil => rfl
  | cons x l ih =>
      simp only [List.filterMap_cons, List.countP_cons]
      cases h : parseRow x <;> simp [h, ih]

theorem replaceWsRuns_all_not_ws :
    ∀ l : List Char, (replaceWsRuns l).all (fun c => ! isJsWhitespace c) = true := by
  intro l
  induction l with
  | nil => rfl
  | cons c rest ih =>
      cases rest with
      | nil =>
          by_cases h : isJsWhitespace c = true
          · simp [replaceWsRuns, h]; decide
          · simp only [Bool.not_eq_true] at h
            simp [replaceWsRuns, h]
      | cons d rest' =>
          by_cases hc : isJsWhitespace c = true
          · by_cases hd : isJsWhitespace d = true
            · simpa [replaceWsRuns, hc, hd] using ih
            · simp only [Bool.not_eq_true] at hd
              simp [replaceWsRuns, hc, hd, ih]
              decide
          · simp only [Bool.not_eq_true] at hc
            simp [replaceWsRuns, hc, ih]

/-! Definitional bridges: the happy path of `processExcelFile` is
`processRecords` on the extracted records, whose pieces are the loop run from
the initial state. -/

theorem processRecords_events (rows : List RecipientRecord) (outcome : Nat → StepOutcome) :
    (processRecords rows outcome).events =
      (runLoop rows outcome (initState rows) 0).events ++
        [Event.complete
          { total := (runLoop rows outcome (initState rows) 0).results.total,
            success := (runLoop rows outcome (initState rows) 0).results.success,
            failed := (runLoop rows outcome (initState rows) 0).results.failed,
            errors := (runLoop rows outcome (initState rows) 0).results.errors,
            processing := false, currentIndex := none }] := rfl

theorem processRecords_results (rows : List RecipientRecord) (outcome : Nat → StepOutcome) :
    (processRecords rows outcome).results = (runLoop rows outcome (initState rows) 0).results :=
  rfl

theorem processRecords_files (rows : List RecipientRecord) (outcome : Nat → StepOutcome) :
    (processRecords rows outcome).files = (runLoop rows outcome (initState rows) 0).files :=
  rfl

theorem processExcelFile_ok_events (sheet : List RawRow) (outcome : Nat → StepOutcome) :
    (processExcelFile
      { sheet := Except.ok sheet, templateExists := true, emailConfigured := true }
      outcome).events = (processRecords (extractRecords sheet) outcome).events := rfl

theorem processExcelFile_ok_result (sheet : List RawRow) (outcome : Nat → StepOutcome) :
    (processExcelFile
      { sheet := Except.ok sheet, templateExists := true, emailConfigured := true }
      outcome).result = some (processRecords (extractRecords sheet) outcome).results := rfl

/-! Concrete records, outcomes and inputs used by witnesses and
counterexamples. -/

def rowJohn : RecipientRecord :=
  { name := "John Doe", phone := "9876543210", email := "john@example.com" }

def rowJane : RecipientRecord :=
  { name := "Jane Smith", phone := "9876543211", email := "jane@example.com" }

def rowBob : RecipientRecord :=
  { name := "Bob Johnson", phone := "9876543212", email := "bob@example.com" }

def allOkOutcome : Nat → StepOutcome := fun _ => StepOutcome.ok

def allFailOutcome : Nat → StepOutcome := fun _ => StepOutcome.sendFail "Connection refused"

def failFirstOutcome : Nat → StepOutcome :=
  fun i => if i = 0 then StepOutcome.sendFail "SMTP error" else StepOutcome.ok

def failSecondOutcome : Nat → StepOutcome :=
  fun i => if i = 1 then StepOutcome.sendFail "Connection timed out" else StepOutcome.ok

def missingTemplateInput : BatchInput :=
  { sheet := Except.ok [], templateExists := false, emailConfigured := true }

def initProgressData : ProgressData :=
  { total := 0, success := 0, failed := 0, errors := [], processing := true,
    currentIndex := none }

def finalCompleteData : ProgressData :=
  { total := 0, success := 0, failed := 0, errors := [], processing := false,
    currentIndex := none }

/-- C1: for every batch run that passes the fatal precondition checks (source
readable, template image present, mail sender configured), every emitted
progress event satisfies `success + failed = currentIndex` (the initial event
carries no `currentIndex`, read as 0) and `currentIndex ≤ total`, and the
completion event satisfies `success + failed = total`. -/
theorem progress_counter_invariant (sheet : List RawRow) (outcome : Nat → StepOutcome) :
    (∀ d, Event.progress d ∈ (processExcelFile
        { sheet := Except.ok sheet, templateExists := true, emailConfigured := true }
        outcome).events →
      d.success + d.failed = d.currentIndex.getD 0 ∧ d.currentIndex.getD 0 ≤ d.total) ∧
    (∀ d, Event.complete d ∈ (processExcelFile
        { sheet := Except.ok sheet, templateExists := true, emailConfigured := true }
        outcome).events →
      d.success + d.failed = d.total) := by
  have hinit : ∀ d, Event.progress d ∈ (initState (extractRecords sheet)).events →
      d.success + d.failed = d.currentIndex.getD 0 ∧ d.currentIndex.getD 0 ≤ d.total := by
    intro d hd
    simp only [initState, List.mem_singleton, Event.progress.injEq] at hd
    subst hd
    simp
  constructor
  · intro d hd
    rw [processExcelFile_ok_events, processRecords_events] at hd
    rcases List.mem_append.1 hd with hd | hd
    · exact runLoop_progress_inv (extractRecords sheet) outcome
        (initState (extractRecords sheet)) 0 rfl (by simp [initState]) hinit d hd
    · simp at hd
  · intro d hd
    rw [processExcelFile_ok_events, processRecords_events] at hd
    rcases List.mem_append.1 hd with hd | hd
    · exfalso
      have h0 : (runLoop (extractRecords sheet) outcome
          (initState (extractRecords sheet)) 0).events.countP Event.isComplete = 0 := by
        rw [runLoop_countP_complete]
        rfl
      have h1 := List.countP_eq_zero.1 h0 _ hd
      simp [Event.isComplete] at h1
    · simp only [List.mem_singleton, Event.complete.injEq] at hd
      subst hd
      show (runLoop (extractRecords sheet) outcome
          (initState (extractRecords sheet)) 0).results.success +
        (runLoop (extractRecords sheet) outcome
          (initState (extractRecords sheet)) 0).results.failed =
        (runLoop (extractRecords sheet) outcome
          (initState (extractRecords sheet)) 0).results.total
      rw [runLoop_success, runLoop_failed, runLoop_total]
      simp only [initState, Nat.zero_add]
      exact succeededCount_add_failedCount (extractRecords sheet) outcome 0

/-- Witness for C1 on a concrete passing run (the empty sheet): its initial
progress event and its completion event satisfy the invariant. -/
theorem progress_counter_invariant_witness :
    (initProgressData.success + initProgressData.failed =
        initProgressData.currentIndex.getD 0 ∧
      initProgressData.currentIndex.getD 0 ≤ initProgressData.total) ∧
    finalCompleteData.success + finalCompleteData.failed = finalCompleteData.total :=
  ⟨(progress_counter_invariant [] allOkOutcome).1 initProgressData (by decide),
   (progress_counter_invariant [] allOkOutcome).2 finalCompleteData (by decide)⟩

/-- C2 (counterexample): a batch of N = 1 extracted records whose single
delivery fails emits only 1 progress-type event (the initial one), not
N + 1 = 2: the catch block emits no progress event, so the claimed count
"regardless of how many succeed or fail" is false. -/
theorem progress_event_count_cex :
    (processRecords [rowJohn] allFailOutcome).events.countP Event.isProgress = 1 ∧
    (processRecords [rowJohn] allFailOutcome).events.countP Event.isProgress ≠
      [rowJohn].length + 1 := by
  constructor
  · decide
  · decide

/-- C2 (amended): for a batch of N extracted records of which S succeed, the
run emits exactly S + 1 progress-type events (one before any record and one
after each successful record; a failing record emits none), exactly one
completion event which comes last, and `currentIndex` is monotonically
non-decreasing across the progress events. -/
theorem progress_event_count_amended (rows : List RecipientRecord)
    (outcome : Nat → StepOutcome) :
    (processRecords rows outcome).events.countP Event.isProgress =
      succeededCount rows outcome 0 + 1 ∧
    (processRecords rows outcome).events.countP Event.isComplete = 1 ∧
    (∃ d, (processRecords rows outcome).events.getLast? = some (Event.complete d)) ∧
    List.Chain' (fun a b => a ≤ b) (progressIndices (processRecords rows outcome).events) := by
  rw [processRecords_events]
  refine ⟨?_, ?_, ?_, ?_⟩
  · rw [List.countP_append, runLoop_countP_progress]
    simp only [initState, List.countP_cons, List.countP_nil, Event.isProgress]
    simp
    omega
  · rw [List.countP_append, runLoop_countP_complete]
    simp [initState, List.countP_cons, Event.isComplete]
  · exact ⟨_, List.getLast?_concat _⟩
  · have hchain := runLoop_chain rows outcome (initState rows) 0
      (by simp [initState, progressIndices])
      (by simp [initState, progressIndices])
    have hpi : progressIndices ((runLoop rows outcome (initState rows) 0).events ++
        [Event.complete
          { total := (runLoop rows outcome (initState rows) 0).results.total,
            success := (runLoop rows outcome (initState rows) 0).results.success,
            failed := (runLoop rows outcome (initState rows) 0).results.failed,
            errors := (runLoop rows outcome (initState rows) 0).results.errors,
            processing := false, currentIndex := none }]) =
        progressIndices (runLoop rows outcome (initState rows) 0).events := by
      simp [progressIndices, List.filterMap_append]
    rw [hpi]
    exact hchain.1

/-- C3: a render or delivery failure at record `i` (error message `m`) puts the
entry built from record `i`'s name into the errors list, while every record of
the batch is still processed (`success + failed = rows.length`), with the two
counters counting exactly the succeeding and the failing records. -/
theorem failure_isolation (rows : List RecipientRecord) (outcome : Nat → StepOutcome)
    (i : Nat) (h : i < rows.length) (m : String) (hm : (outcome i).failMsg = some m) :
    ((rows.get ⟨i, h⟩).name ++ ": " ++ m) ∈ (processRecords rows outcome).results.errors ∧
    (processRecords rows outcome).results.success +
      (processRecords rows outcome).results.failed = rows.length ∧
    (processRecords rows outcome).results.failed = failedCount rows outcome 0 ∧
    (processRecords rows outcome).results.success = succeededCount rows outcome 0 := by
  rw [processRecords_results]
  refine ⟨?_, ?_, ?_, ?_⟩
  · rw [runLoop_errors]
    simp only [initState, List.nil_append]
    exact mem_expectedErrors rows outcome 0 i h m (by simpa using hm)
  · rw [runLoop_success, runLoop_failed]
    simp only [initState, Nat.zero_add]
    exact succeededCount_add_failedCount rows outcome 0
  · rw [runLoop_failed]
    simp [initState]
  · rw [runLoop_success]
    simp [initState]

/-- Witness for C3: in the 3-record batch John/Jane/Bob where only record 2's
send throws, the errors list contains the entry naming Jane, and the final
counters are success 2, failed 1 over 3 records. -/
theorem failure_isolation_witness :
    (rowJane.name ++ ": " ++ "Connection timed out") ∈
      (processRecords [rowJohn, rowJane, rowBob] failSecondOutcome).results.errors ∧
    (processRecords [rowJohn, rowJane, rowBob] failSecondOutcome).results.success +
      (processRecords [rowJohn, rowJane, rowBob] failSecondOutcome).results.failed =
        [rowJohn, rowJane, rowBob].length ∧
    (processRecords [rowJohn, rowJane, rowBob] failSecondOutcome).results.failed =
      failedCount [rowJohn, rowJane, rowBob] failSecondOutcome 0 ∧
    (processRecords [rowJohn, rowJane, rowBob] failSecondOutcome).results.success =
      succeededCount [rowJohn, rowJane, rowBob] failSecondOutcome 0 := by
  exact failure_isolation [rowJohn, rowJane, rowBob] failSecondOutcome 1 (by decide)
    "Connection timed out" (by decide)

/-- C4 (counterexample): in a 2-record batch whose first record's send throws,
`card-1.png` is still in the working area after the whole run — it was not
removed after that delivery attempt, and in particular not released before the
next record began. -/
theorem artifact_cleanup_cex :
    (processRecords [rowJohn, rowJane] failFirstOutcome).files.map pathOf = ["card-1.png"] ∧
    (processRecords [rowJohn, rowJane] failFirstOutcome).files ≠ [] := by
  constructor
  · decide
  · decide

/-- C4 (amended): the generated image file of a record is removed immediately
after the delivery attempt only when delivery succeeds; after the run the
working area holds exactly the files of the records whose send threw (a render
failure writes no file, a success unlinks its file). -/
theorem artifact_cleanup_amended (rows : List RecipientRecord)
    (outcome : Nat → StepOutcome) :
    (processRecords rows outcome).files = leftoverIdx rows outcome 0 := by
  rw [processRecords_files, runLoop_files rows outcome (initState rows) 0 (by simp [initState])]
  simp [initState]

/-- C5: when a fatal precondition fails — the source cannot be read or parsed,
the template image is missing, or the mail sender is unconfigured — the run
emits exactly one event, an error event, leaves no files, returns no results
and processes no records. -/
theorem fatal_precondition_single_error (inp : BatchInput) (outcome : Nat → StepOutcome)
    (h : (∃ msg, inp.sheet = Except.error msg) ∨ inp.templateExists = false ∨
      inp.emailConfigured = false) :
    ∃ m, processExcelFile inp outcome =
      { events := [Event.error m], files := [], result := none } := by
  obtain ⟨sheet, template, email⟩ := inp
  rcases h with ⟨msg, hs⟩ | ht | he
  · simp only at hs
    subst hs
    exact ⟨msg, rfl⟩
  · simp only at ht
    subst ht
    cases sheet with
    | error msg => exact ⟨msg, rfl⟩
    | ok s => exact ⟨"Template image not found", rfl⟩
  · simp only at he
    subst he
    cases sheet with
    | error msg => exact ⟨msg, rfl⟩
    | ok s =>
        cases template with
        | false => exact ⟨"Template image not found", rfl⟩
        | true => exact ⟨"Email credentials not configured", rfl⟩

/-- Witness for C5: with the template image missing, the run produces exactly
one error event and nothing else. -/
theorem fatal_precondition_single_error_witness :
    ∃ m, processExcelFile missingTemplateInput allOkOutcome =
      { events := [Event.error m], files := [], result := none } :=
  fatal_precondition_single_error missingTemplateInput allOkOutcome (Or.inr (Or.inl rfl))

/-- C6: a data row (any row after the header) becomes a record if and only if
all of its first three cells are present and non-blank after trimming; the
record set is exactly the accepted data rows, `total` counts exactly them, and
skipped rows are counted neither in `total` nor as failures (every counted
outcome belongs to a record: `success + failed = total`). -/
theorem row_extraction_criterion (sheet : List RawRow) (outcome : Nat → StepOutcome)
    (r : RawRow) :
    ((parseRow r).isSome ↔
      ∃ a b c, r.cell1 = some a ∧ r.cell2 = some b ∧ r.cell3 = some c ∧
        a.trim ≠ "" ∧ b.trim ≠ "" ∧ c.trim ≠ "") ∧
    extractRecords sheet = (sheet.drop 1).filterMap parseRow ∧
    (extractRecords sheet).length =
      (sheet.drop 1).countP (fun row => (parseRow row).isSome) ∧
    ∃ res, (processExcelFile
        { sheet := Except.ok sheet, templateExists := true, emailConfigured := true }
        outcome).result = some res ∧
      res.total = (extractRecords sheet).length ∧
      res.success + res.failed = res.total := by
  refine ⟨?_, rfl, length_filterMap_parseRow _, ?_⟩
  · obtain ⟨c1, c2, c3⟩ := r
    cases c1 with
    | none => simp [parseRow]
    | some a =>
        cases c2 with
        | none => simp [parseRow]
        | some b =>
            cases c3 with
            | none => simp [parseRow]
            | some c =>
                by_cases hcond : a.trim ≠ "" ∧ b.trim ≠ "" ∧ c.trim ≠ ""
                · simp [parseRow, hcond]
                · simp [parseRow, hcond]
  · refine ⟨(processRecords (extractRecords sheet) outcome).results,
      processExcelFile_ok_result sheet outcome, ?_, ?_⟩
    · rw [processRecords_results, runLoop_total]
      rfl
    · rw [processRecords_results, runLoop_success, runLoop_failed, runLoop_total]
      simp only [initState, Nat.zero_add]
      exact succeededCount_add_failedCount (extractRecords sheet) outcome 0

/-- C7: for every template image of dimensions W×H and every record, the canvas
produced by the image renderer has dimensions exactly W×H. -/
theorem rendered_dimensions (template : TemplateImage) (data : RecipientRecord) :
    (generatePersonalizedImage template data).width = template.width ∧
    (generatePersonalizedImage template data).height = template.height :=
  ⟨rfl, rfl⟩

/-- C8: the mail built by the delivery agent for a record is addressed to the
record's email, carries the fixed subject line, an HTML body with the record's
name interpolated, and exactly one attachment whose filename is derived from
the record's name with every whitespace run replaced by a dash (the resulting
name part contains no whitespace at all). -/
theorem sendEmail_contract (senderEmail : String) (recipient : RecipientRecord)
    (imagePath : String) :
    (sendEmail senderEmail recipient imagePath).toAddr = recipient.email ∧
    (sendEmail senderEmail recipient imagePath).subject =
      "Your Personalized Investment Card" ∧
    (sendEmail senderEmail recipient imagePath).html =
      emailHtmlHead ++ recipient.name ++ emailHtmlTail ∧
    (sendEmail senderEmail recipient imagePath).attachments =
      [{ filename := "investment-card-" ++ replaceWs recipient.name ++ ".png",
         path := imagePath }] ∧
    ((replaceWs recipient.name).data.all fun c => ! isJsWhitespace c) = true :=
  ⟨rfl, rfl, rfl, rfl, replaceWsRuns_all_not_ws recipient.name.data⟩

/-- C9: the pipeline is deterministic — two runs on the same extracted records
whose render and delivery outcomes agree at every record index produce
identical `total`, `success` and `failed` counters and identical error lists. -/
theorem pipeline_deterministic (rows : List RecipientRecord)
    (outcome1 outcome2 : Nat → StepOutcome) (h : ∀ i, outcome1 i = outcome2 i) :
    (processRecords rows outcome1).results.total =
      (processRecords rows outcome2).results.total ∧
    (processRecords rows outcome1).results.success =
      (processRecords rows outcome2).results.success ∧
    (processRecords rows outcome1).results.failed =
      (processRecords rows outcome2).results.failed ∧
    (processRecords rows outcome1).results.errors =
      (processRecords rows outcome2).results.errors := by
  have he : outcome1 = outcome2 := funext h
  subst he
  exact ⟨rfl, rfl, rfl, rfl⟩

/-- Witness for C9: two runs of the John/Jane/Bob batch under the same
deterministic outcome function produce identical counters and error lists. -/
theorem pipeline_deterministic_witness :
    (processRecords [rowJohn, rowJane, rowBob] failSecondOutcome).results.total =
      (processRecords [rowJohn, rowJane, rowBob] failSecondOutcome).results.total ∧
    (processRecords [rowJohn, rowJane, rowBob] failSecondOutcome).results.success =
      (processRecords [rowJohn, rowJane, rowBob] failSecondOutcome).results.success ∧
    (processRecords [rowJohn, rowJane, rowBob] failSecondOutcome).results.failed =
      (processRecords [rowJohn, rowJane, rowBob] failSecondOutcome).results.failed ∧
    (processRecords [rowJohn, rowJane, rowBob] failSecondOutcome).results.errors =
      (processRecords [rowJohn, rowJane, rowBob] failSecondOutcome).results.errors :=
  pipeline_deterministic [rowJohn, rowJane, rowBob] failSecondOutcome failSecondOutcome
    (fun _ => rfl)

/-- C10: at every intermediate state of a batch run (after any prefix of the
records) the length of the errors list equals the `failed` counter, and the
final errors list consists exactly of the single concatenated strings
`name ++ ": " ++ message` of the failing records, in order — not structured
pairs. The first conjunct shows the state after the prefix really is the
run's intermediate state. -/
theorem errors_length_invariant (l₁ l₂ : List RecipientRecord)
    (outcome : Nat → StepOutcome) :
    runLoop (l₁ ++ l₂) outcome (initState (l₁ ++ l₂)) 0 =
      runLoop l₂ outcome (runLoop l₁ outcome (initState (l₁ ++ l₂)) 0) l₁.length ∧
    (runLoop l₁ outcome (initState (l₁ ++ l₂)) 0).results.errors.length =
      (runLoop l₁ outcome (initState (l₁ ++ l₂)) 0).results.failed ∧
    (processRecords (l₁ ++ l₂) outcome).results.errors =
      expectedErrors (l₁ ++ l₂) outcome 0 := by
  refine ⟨?_, ?_, ?_⟩
  · have h := runLoop_append l₁ l₂ outcome (initState (l₁ ++ l₂)) 0
    simpa using h
  · rw [runLoop_errors, runLoop_failed]
    simp only [initState, List.nil_append, Nat.zero_add]
    exact length_expectedErrors l₁ outcome 0
  · rw [processRecords_results, runLoop_errors]
    simp [initState]
